import Mathlib

/-!
Shallow embedding of the generic entity-access layer of
`diffusion-image-gen-platform` (`src/router/base.py` together with the
entity base of `src/model/base.py`), and theorems checking the
specification's claims about it.

Records are modelled as association lists from attribute names to dynamic
values whose truthiness mirrors Python's (`None`, `0`, `""`, `False` and
empty collections are falsy).  The externally supplied session is modelled
as a store of flushed rows plus a pending list, a fresh-identifier supply
and a clock; each access function additionally reports the trace of
session primitives (`add`, `flush`, `execute`, `commit`) it invoked.
-/

namespace DiffusionCrud

/-- Scalar attribute values: booleans, integers, strings, timestamps and
UUIDs (timestamps and UUIDs abstracted as naturals). -/
inductive Prim where
  | pBool (b : Bool)
  | pInt (n : Int)
  | pStr (s : String)
  | pTime (t : Nat)
  | pId (u : Nat)
deriving DecidableEq

/-- Dynamic attribute values carried by ORM records: `None`, a scalar, or
a collection of scalars. -/
inductive Value where
  | vNull
  | vPrim (p : Prim)
  | vList (elems : List Prim)
deriving DecidableEq

/-- Shorthand constructors for scalar values. -/
abbrev Value.vBool (b : Bool) : Value := .vPrim (.pBool b)

abbrev Value.vInt (n : Int) : Value := .vPrim (.pInt n)

abbrev Value.vStr (s : String) : Value := .vPrim (.pStr s)

abbrev Value.vTime (t : Nat) : Value := .vPrim (.pTime t)

abbrev Value.vId (u : Nat) : Value := .vPrim (.pId u)

/-- Python truthiness of a value (`if v:`): `None`, `False`, `0`, `""`
and the empty collection are falsy; `datetime` and `UUID` objects are
always truthy. -/
def Value.truthy : Value → Bool
  | .vNull => false
  | .vPrim (.pBool b) => b
  | .vPrim (.pInt n) => decide (n ≠ 0)
  | .vPrim (.pStr s) => decide (s ≠ "")
  | .vPrim (.pTime _) => true
  | .vPrim (.pId _) => true
  | .vList es => decide (es ≠ [])

/-- An ORM row / entity instance: a finite map from attribute names to
values, as an association list (first binding wins). -/
structure Record where
  attrs : List (String × Value)
deriving DecidableEq

/-- First binding of a key in an association list. -/
def alookup : List (String × Value) → String → Option Value
  | [], _ => none
  | (k', v') :: rest, k => if k' = k then some v' else alookup rest k

/-- Attribute access (`getattr`); an unset attribute reads as `None`. -/
def Record.get (r : Record) (a : String) : Value :=
  (alookup r.attrs a).getD Value.vNull

/-- Replace the first binding of `k` (or append one): dictionary update. -/
def assocSet : List (String × Value) → String → Value → List (String × Value)
  | [], k, v => [(k, v)]
  | (k', v') :: rest, k, v =>
    if k' = k then (k, v) :: rest else (k', v') :: assocSet rest k v

/-- Attribute assignment (`setattr`). -/
def Record.set (r : Record) (k : String) (v : Value) : Record :=
  ⟨assocSet r.attrs k v⟩

/-- A table descriptor: the column names of the mapped table
(`table.__table__.c`). -/
structure Table where
  columns : List String
deriving DecidableEq

/-- Session primitives an access function may invoke. -/
inductive SOp where
  | add
  | flush
  | exec
  | commit
deriving DecidableEq

/-- The external transactional session: flushed rows of the target table,
rows staged but not yet flushed, a fresh-UUID supply and the current
clock. -/
structure Session where
  db : List Record
  pending : List Record
  nextId : Nat
  now : Nat
deriving DecidableEq

/-- Equality of `Except` results is decidable when both components are. -/
def exceptDecEq {ε α : Type} [DecidableEq ε] [DecidableEq α] :
    (a b : Except ε α) → Decidable (a = b)
  | .ok x, .ok y =>
    if h : x = y then isTrue (by rw [h])
    else isFalse (by intro he; cases he; exact h rfl)
  | .ok _, .error _ => isFalse (by intro h; cases h)
  | .error _, .ok _ => isFalse (by intro h; cases h)
  | .error e, .error f =>
    if h : e = f then isTrue (by rw [h])
    else isFalse (by intro he; cases he; exact h rfl)

instance {ε α : Type} [DecidableEq ε] [DecidableEq α] :
    DecidableEq (Except ε α) := exceptDecEq

/-- Failure kinds surfaced by the access layer: `sqlalchemy`'s
`NoResultFound` and `MultipleResultsFound` from `Result.one`, and the
`KeyError` from an unguarded `table.__table__.c[attr]` lookup. -/
inductive Err where
  | noResultFound
  | multipleResultsFound
  | keyError
deriving DecidableEq

/-- Embedding of `session.add(data)`: stage a row for insertion. -/
def Session.addRow (s : Session) (r : Record) : Session × List SOp :=
  ({ s with pending := s.pending ++ [r] }, [SOp.add])

/-- Column defaults of the entity base (`src/model/base.py`): at flush,
an unset `id` receives a fresh UUID and unset audit timestamps receive
the current time. -/
def applyDefaults (now : Nat) (fresh : Nat) (r : Record) : Record :=
  let r1 := if r.get "id" = Value.vNull then r.set "id" (Value.vId fresh) else r
  let r2 := if r1.get "created_at" = Value.vNull then
    r1.set "created_at" (Value.vTime now) else r1
  if r2.get "updated_at" = Value.vNull then
    r2.set "updated_at" (Value.vTime now) else r2

/-- Flush the pending rows in order, drawing fresh identifiers from the
supply. -/
def flushRecs (now : Nat) : Nat → List Record → List Record
  | _, [] => []
  | fresh, r :: rest => applyDefaults now fresh r :: flushRecs now (fresh + 1) rest

/-- Embedding of `await session.flush()`: apply column defaults to
every pending row and move them into the store. -/
def Session.flushAll (s : Session) : Session × List SOp :=
  ({ s with
      db := s.db ++ flushRecs s.now s.nextId s.pending
      pending := []
      nextId := s.nextId + s.pending.length }, [SOp.flush])

/-- A `select` statement restricted by equality predicates
(`stmt.where(col == value)` chains). -/
structure Stmt where
  wheres : List (String × Value)
deriving DecidableEq

/-- Embedding of `select(table)`: the statement with no predicates. -/
def selectAll (_table : Table) : Stmt := ⟨[]⟩

/-- Embedding of `stmt.where(table.__table__.c[attr] == value)`. -/
def Stmt.whereEq (st : Stmt) (c : String) (v : Value) : Stmt :=
  ⟨st.wheres ++ [(c, v)]⟩

/-- A row satisfies a statement when it satisfies every equality
predicate (SQL `NULL = v` never holds, matching `Record.get` yielding
`vNull` on unset attributes and `v` never being `vNull` here). -/
def rowMatches (r : Record) (st : Stmt) : Bool :=
  st.wheres.all fun kv => decide (r.get kv.1 = kv.2)

/-- Embedding of `await session.execute(stmt)` followed by
`.scalars().all()`: the rows of the store satisfying the statement. -/
def Session.executeSelect (s : Session) (st : Stmt) : List Record × List SOp :=
  (s.db.filter (rowMatches · st), [SOp.exec])

/-- Embedding of `Result.scalars().one()`: exactly one row,
`NoResultFound` on zero, `MultipleResultsFound` on two or more. -/
def scalarsOne : List Record → Except Err Record
  | [] => .error Err.noResultFound
  | [r] => .ok r
  | _ :: _ :: _ => .error Err.multipleResultsFound

/-- Embedding of `read_item_by_id(session, table, id)`. -/
def read_item_by_id (s : Session) (table : Table) (idv : Value) :
    Except Err Record × List SOp :=
  let stmt := (selectAll table).whereEq "id" idv
  let (rows, tr) := s.executeSelect stmt
  (scalarsOne rows, tr)

/-- The `for attr, value in kwargs.items()` loop of `read_items_by_attrs`:
a `None` value is skipped, a known column adds an equality predicate, an
unknown column raises `KeyError` from `table.__table__.c[attr]`. -/
def buildStmt (table : Table) (st : Stmt) :
    List (String × Value) → Except Err Stmt
  | [] => .ok st
  | (attr, value) :: rest =>
    if value = Value.vNull then buildStmt table st rest
    else if table.columns.contains attr then
      buildStmt table (st.whereEq attr value) rest
    else .error Err.keyError

/-- Embedding of `read_items_by_attrs(session, table, **kwargs)`. -/
def read_items_by_attrs (s : Session) (table : Table)
    (filters : List (String × Value)) : Except Err (List Record) × List SOp :=
  match buildStmt table (selectAll table) filters with
  | .error e => (.error e, [])
  | .ok stmt =>
    let (rows, tr) := s.executeSelect stmt
    (.ok rows, tr)

/-- Embedding of `create_item(session, table, data)`: stage the row,
flush, then re-read it by the identifier the flush left on the (mutated
in place) `data` object — the last row flushed, hence the fresh index
`s.nextId + s.pending.length`. -/
def create_item (s : Session) (table : Table) (data : Record) :
    Except Err Record × Session × List SOp :=
  let (s1, t1) := s.addRow data
  let (s2, t2) := s1.flushAll
  let dataF := applyDefaults s.now (s.nextId + s.pending.length) data
  let (res, t3) := read_item_by_id s2 table (dataF.get "id")
  (res, s2, t1 ++ t2 ++ t3)

/-- Embedding of `data.to_dict()` of `advanced_alchemy`'s
`CommonTableAttributes`: the
mapping from every column name of the table to the corresponding
attribute of `data`. -/
def to_dict (table : Table) (r : Record) : List (String × Value) :=
  table.columns.map fun c => (c, r.get c)

/-- Embedding of `update_item(session, id, data, table)`: keep the truthy
attributes of `data.to_dict()`, force `updated_at` to the current time,
look the record up by `id`, and `setattr` each kept attribute onto it.
The in-place mutation of the fetched row is reflected by replacing it in
the store. -/
def update_item (s : Session) (idv : Value) (data : Record) (table : Table) :
    Except Err Record × Session × List SOp :=
  let data1 := (to_dict table data).filter fun kv => kv.2.truthy
  let data2 := assocSet data1 "updated_at" (Value.vTime s.now)
  match read_item_by_id s table idv with
  | (.error e, tr) => (.error e, s, tr)
  | (.ok result, tr) =>
    let result2 := data2.foldl (fun acc kv => acc.set kv.1 kv.2) result
    (.ok result2,
      { s with db := s.db.map fun r =>
          if r.get "id" = idv then result2 else r },
      tr)

/-- The record produced by a successful `update_item` on fetched row
`r0`: every kept (truthy) payload attribute assigned in order, after
`updated_at` was forced to the current time in the update dictionary. -/
def updResult (s : Session) (data : Record) (table : Table) (r0 : Record) :
    Record :=
  (assocSet ((to_dict table data).filter fun kv => kv.2.truthy)
      "updated_at" (Value.vTime s.now)).foldl
    (fun acc kv => acc.set kv.1 kv.2) r0

/-! ### Concrete fixtures used to instantiate the theorems -/

/-- A concrete entity table with the audit columns of the base model plus
three payload columns. -/
def tEx : Table :=
  ⟨["id", "name", "count", "active", "created_at", "updated_at"]⟩

/-- A stored row: `name="Alice", count=5, active=true`, audit timestamps
both `1`. -/
def rAlice : Record :=
  ⟨[("id", Value.vId 1), ("name", Value.vStr "Alice"),
    ("count", Value.vInt 5), ("active", Value.vBool true),
    ("created_at", Value.vTime 1), ("updated_at", Value.vTime 1)]⟩

/-- A session holding only `rAlice`, clock at `7`, fresh supply at `2`. -/
def sEx : Session := ⟨[rAlice], [], 2, 7⟩

/-- The specification's update payload: one truthy attribute (`name`)
and two falsy ones (`count=0`, `active=false`). -/
def dBob : Record :=
  ⟨[("name", Value.vStr "Bob"), ("count", Value.vInt 0),
    ("active", Value.vBool false)]⟩

/-- The row expected after updating `rAlice` with `dBob` at time `7`. -/
def rBobRes : Record :=
  ⟨[("id", Value.vId 1), ("name", Value.vStr "Bob"),
    ("count", Value.vInt 5), ("active", Value.vBool true),
    ("created_at", Value.vTime 1), ("updated_at", Value.vTime 7)]⟩

/-- A payload carrying a truthy `id` value differing from the target's. -/
def dEvil : Record := ⟨[("id", Value.vId 99)]⟩

/-- A payload carrying a truthy `created_at` later than the clock. -/
def dTime : Record := ⟨[("created_at", Value.vTime 100)]⟩

/-- A candidate record for creation: only a payload attribute set. -/
def dNew : Record := ⟨[("name", Value.vStr "x")]⟩

/-- A session with two rows sharing one identifier: an integrity breach
used to exhibit the `MultipleResultsFound` branch. -/
def sDup : Session := ⟨[rAlice, rAlice], [], 2, 7⟩

/-- The row expected after updating `rAlice` with `dTime` at time `7`:
the payload's truthy `created_at` overwrote the audit column. -/
def rTimeRes : Record :=
  ⟨[("id", Value.vId 1), ("name", Value.vStr "Alice"),
    ("count", Value.vInt 5), ("active", Value.vBool true),
    ("created_at", Value.vTime 100), ("updated_at", Value.vTime 7)]⟩

/-- The row expected in the store after creating `dNew` in `sEx`:
identifier `2` drawn from the supply, both audit timestamps at `7`. -/
def rNewRes : Record :=
  ⟨[("name", Value.vStr "x"), ("id", Value.vId 2),
    ("created_at", Value.vTime 7), ("updated_at", Value.vTime 7)]⟩

/-- The session expected after creating `dNew` in `sEx`. -/
def sNew : Session := ⟨[rAlice, rNewRes], [], 3, 7⟩

/-- The conjunction of equality constraints a row must satisfy for a
filter set: every filter whose value is not `None` must hold as an
equality; `None`-valued filters constrain nothing. -/
def conjMatches (filters : List (String × Value)) (r : Record) : Bool :=
  filters.all fun kv =>
    decide (kv.2 = Value.vNull) || decide (r.get kv.1 = kv.2)

/-! ### Association-list toolkit -/

theorem alookup_assocSet (l : List (String × Value)) (k : String) (v : Value)
    (a : String) :
    alookup (assocSet l k v) a = if k = a then some v else alookup l a := by
  induction l with
  | nil => simp [assocSet, alookup]
  | cons kv rest ih =>
    obtain ⟨k', v'⟩ := kv
    by_cases hk : k' = k
    · subst hk
      simp only [assocSet, if_pos rfl, alookup]
      by_cases h : k' = a <;> simp [h]
    · simp only [assocSet, hk, if_false, alookup, ih]
      by_cases h1 : k' = a
      · have h2 : ¬k = a := fun he => hk (h1.trans he.symm)
        simp [h1, h2]
      · simp [h1]

theorem Record.get_set (r : Record) (k : String) (v : Value) (a : String) :
    (r.set k v).get a = if k = a then v else r.get a := by
  unfold Record.get Record.set
  rw [alookup_assocSet]
  by_cases h : k = a <;> simp [h]

theorem alookup_eq_none (l : List (String × Value)) (a : String)
    (h : a ∉ l.map Prod.fst) : alookup l a = none := by
  induction l with
  | nil => rfl
  | cons kv rest ih =>
    obtain ⟨k', v'⟩ := kv
    simp only [List.map_cons, List.mem_cons] at h
    push_neg at h
    have hne : ¬k' = a := fun he => h.1 he.symm
    simp [alookup, hne, ih h.2]

theorem assocSet_keys_subset (l : List (String × Value)) (k : String)
    (v : Value) : (assocSet l k v).map Prod.fst ⊆ k :: l.map Prod.fst := by
  induction l with
  | nil => simp [assocSet]
  | cons kv rest ih =>
    obtain ⟨k', v'⟩ := kv
    by_cases hk : k' = k
    · subst hk
      simp [assocSet]
    · simp only [assocSet, hk, if_false, List.map_cons]
      intro x hx
      rcases List.mem_cons.mp hx with h | h
      · simp [h]
      · rcases List.mem_cons.mp (ih h) with h' | h'
        · simp [h']
        · simp [h']

theorem assocSet_keys_nodup (l : List (String × Value)) (k : String)
    (v : Value) (h : (l.map Prod.fst).Nodup) :
    ((assocSet l k v).map Prod.fst).Nodup := by
  induction l with
  | nil => simp [assocSet]
  | cons kv rest ih =>
    obtain ⟨k', v'⟩ := kv
    simp only [List.map_cons, List.nodup_cons] at h
    by_cases hk : k' = k
    · subst hk
      simpa [assocSet] using h
    · simp only [assocSet, hk, if_false, List.map_cons, List.nodup_cons]

      refine ⟨?_, ih h.2⟩
      intro hmem
      rcases List.mem_cons.mp (assocSet_keys_subset rest k v hmem) with h' | h'
      · exact hk h'
      · exact h.1 h'

theorem get_foldl_set (l : List (String × Value)) (r : Record) (a : String)
    (hnd : (l.map Prod.fst).Nodup) :
    (l.foldl (fun acc kv => acc.set kv.1 kv.2) r).get a =
      (alookup l a).getD (r.get a) := by
  induction l generalizing r with
  | nil => rfl
  | cons kv rest ih =>
    obtain ⟨k, v⟩ := kv
    simp only [List.map_cons, List.nodup_cons] at hnd
    simp only [List.foldl_cons]
    rw [ih (r.set k v) hnd.2]
    by_cases h : k = a
    · subst h
      rw [alookup_eq_none rest k hnd.1]
      simp [alookup, Record.get_set]
    · simp [alookup, h, Record.get_set]

theorem alookup_truthy_to_dict (cols : List String) (data : Record)
    (a : String) (hnd : cols.Nodup) :
    alookup ((to_dict ⟨cols⟩ data).filter fun kv => kv.2.truthy) a =
      if a ∈ cols ∧ (data.get a).truthy then some (data.get a) else none := by
  induction cols with
  | nil => simp [to_dict, alookup]
  | cons c cs ih =>
    simp only [List.nodup_cons] at hnd
    have htd : to_dict ⟨c :: cs⟩ data =
        (c, data.get c) :: to_dict ⟨cs⟩ data := rfl
    by_cases hc : a = c
    · subst hc
      by_cases ht : (data.get a).truthy
      · simp [htd, List.filter_cons, ht, alookup]
      · have hnone : alookup ((to_dict ⟨cs⟩ data).filter
            fun kv => kv.2.truthy) a = none := by
          rw [ih hnd.2]
          simp [hnd.1]
        simp [htd, List.filter_cons, ht, hnone]
    · have hne : ¬c = a := fun he => hc he.symm
      by_cases ht : (data.get c).truthy
      · simp [htd, List.filter_cons, ht, alookup, hne, ih hnd.2, hc]
      · simp [htd, List.filter_cons, ht, ih hnd.2, hc]

/-! ### Characterizations of the access functions -/

theorem read_item_by_id_eq (s : Session) (table : Table) (idv : Value) :
    read_item_by_id s table idv =
      (scalarsOne (s.db.filter fun r => decide (r.get "id" = idv)),
       [SOp.exec]) := by
  simp [read_item_by_id, Session.executeSelect, selectAll, Stmt.whereEq,
    rowMatches]

theorem to_dict_keys (cols : List String) (data : Record) :
    (to_dict ⟨cols⟩ data).map Prod.fst = cols := by
  induction cols with
  | nil => rfl
  | cons c cs ih => simpa [to_dict] using ih

theorem data1_keys_nodup (table : Table) (data : Record)
    (hnd : table.columns.Nodup) :
    (((to_dict table data).filter fun kv => kv.2.truthy).map
      Prod.fst).Nodup := by
  have hsub : List.Sublist
      (((to_dict table data).filter fun kv => kv.2.truthy).map Prod.fst)
      ((to_dict table data).map Prod.fst) :=
    (List.filter_sublist _).map _
  obtain ⟨cols⟩ := table
  rw [to_dict_keys cols data] at hsub
  exact hnd.sublist hsub

theorem update_item_ok (s : Session) (idv : Value) (data : Record)
    (table : Table) (r0 : Record)
    (hread : (read_item_by_id s table idv).1 = .ok r0) :
    update_item s idv data table =
      (.ok (updResult s data table r0),
       { s with db := s.db.map fun r =>
           if r.get "id" = idv then updResult s data table r0 else r },
       [SOp.exec]) := by
  have hr := read_item_by_id_eq s table idv
  rw [hr] at hread
  simp only at hread
  simp only [update_item, hr, hread, updResult]

theorem update_item_err (s : Session) (idv : Value) (data : Record)
    (table : Table) (e : Err)
    (hread : (read_item_by_id s table idv).1 = .error e) :
    update_item s idv data table = (.error e, s, [SOp.exec]) := by
  have hr := read_item_by_id_eq s table idv
  rw [hr] at hread
  simp only at hread
  simp only [update_item, hr, hread]

theorem updResult_get (s : Session) (data : Record) (table : Table)
    (r0 : Record) (hnd : table.columns.Nodup) (a : String) :
    (updResult s data table r0).get a =
      if a = "updated_at" then Value.vTime s.now
      else if a ∈ table.columns ∧ (data.get a).truthy then data.get a
      else r0.get a := by
  unfold updResult
  rw [get_foldl_set _ _ _
    (assocSet_keys_nodup _ _ _ (data1_keys_nodup table data hnd))]
  rw [alookup_assocSet]
  by_cases h : a = "updated_at"
  · simp [h]
  · have h' : ¬"updated_at" = a := fun he => h he.symm
    rw [if_neg h', if_neg h]
    obtain ⟨cols⟩ := table
    rw [alookup_truthy_to_dict cols data a hnd]
    by_cases hm : a ∈ cols ∧ (data.get a).truthy
    · simp [hm]
    · simp [hm]

/-! ### Claim theorems -/

/-- C1: for every existing record `r0` fetched by `id` and every update
payload `data`, a successful `update_item` applies onto the record
exactly those attributes of `data` whose values are truthy (falsy values
are dropped and leave the corresponding attributes unchanged), and it
sets `updated_at` to the current time unconditionally. -/
theorem update_applies_exactly_truthy_attrs
    (s : Session) (idv : Value) (data : Record) (table : Table)
    (r0 r' : Record) (s' : Session) (tr : List SOp)
    (hnd : table.columns.Nodup)
    (hread : (read_item_by_id s table idv).1 = .ok r0)
    (hupd : update_item s idv data table = (.ok r', s', tr)) :
    r'.get "updated_at" = Value.vTime s.now ∧
    ∀ a, a ≠ "updated_at" →
      r'.get a = if a ∈ table.columns ∧ (data.get a).truthy
                 then data.get a else r0.get a := by
  rw [update_item_ok s idv data table r0 hread] at hupd
  have hr' : updResult s data table r0 = r' := by
    have h1 := congrArg Prod.fst hupd
    simpa using h1
  rw [← hr']
  refine ⟨?_, ?_⟩
  · rw [updResult_get s data table r0 hnd "updated_at"]
    simp
  · intro a ha
    rw [updResult_get s data table r0 hnd a, if_neg ha]

/-- Witness for C1 at the specification's own scenario (§8.4): updating
Alice with `name="Bob", count=0, active=false` at time 7 keeps `count`
and `active`, applies `name` and refreshes `updated_at`. -/
theorem update_applies_exactly_truthy_attrs_witness :
    tEx.columns.Nodup ∧
    (read_item_by_id sEx tEx (Value.vId 1)).1 = .ok rAlice ∧
    update_item sEx (Value.vId 1) dBob tEx =
      (.ok rBobRes, ⟨[rBobRes], [], 2, 7⟩, [SOp.exec]) ∧
    rBobRes.get "updated_at" = Value.vTime sEx.now ∧
    rBobRes.get "name" = Value.vStr "Bob" ∧
    rBobRes.get "count" = Value.vInt 5 ∧
    rBobRes.get "active" = Value.vBool true := by
  have h := update_applies_exactly_truthy_attrs sEx (Value.vId 1) dBob tEx
    rAlice rBobRes ⟨[rBobRes], [], 2, 7⟩ [SOp.exec]
    (by decide) (by decide) (by decide)
  refine ⟨by decide, by decide, by decide, h.1, ?_, ?_, ?_⟩
  · have hn := h.2 "name" (by decide)
    rw [if_pos (by decide)] at hn
    rw [hn]
    decide
  · have hc := h.2 "count" (by decide)
    rw [if_neg (by decide)] at hc
    rw [hc]
    decide
  · have ha := h.2 "active" (by decide)
    rw [if_neg (by decide)] at ha
    rw [ha]
    decide

/-- Counterexample to C2 as stated: the payload `dEvil` carries the
truthy identifier `99`, and updating the record with identifier `1`
overwrites its `id` — so an access-layer operation does change `id`
for some payloads. -/
theorem update_can_overwrite_id_cex :
    (update_item sEx (Value.vId 1) dEvil tEx).1 =
      .ok (rAlice.set "id" (Value.vId 99) |>.set "updated_at"
        (Value.vTime 7)) ∧
    (rAlice.set "id" (Value.vId 99) |>.set "updated_at"
      (Value.vTime 7)).get "id" = Value.vId 99 ∧
    rAlice.get "id" = Value.vId 1 := by
  refine ⟨by decide, by decide, by decide⟩

/-- C2 amended: a successful `update_item` leaves the target record's
`id` and `created_at` unchanged provided the payload's values for those
attributes are falsy (as they are when the read-only DTO layer strips
them); a truthy `id` or `created_at` in the payload is applied like any
other truthy attribute. -/
theorem update_preserves_id_created_at_of_falsy
    (s : Session) (idv : Value) (data : Record) (table : Table)
    (r0 r' : Record) (s' : Session) (tr : List SOp)
    (hnd : table.columns.Nodup)
    (hread : (read_item_by_id s table idv).1 = .ok r0)
    (hupd : update_item s idv data table = (.ok r', s', tr))
    (hid : (data.get "id").truthy = false)
    (hca : (data.get "created_at").truthy = false) :
    r'.get "id" = r0.get "id" ∧
    r'.get "created_at" = r0.get "created_at" := by
  rw [update_item_ok s idv data table r0 hread] at hupd
  have hr' : updResult s data table r0 = r' := by
    have h1 := congrArg Prod.fst hupd
    simpa using h1
  rw [← hr']
  constructor
  · rw [updResult_get s data table r0 hnd "id", if_neg (by decide),
      if_neg (by simp [hid])]
  · rw [updResult_get s data table r0 hnd "created_at",
      if_neg (by decide), if_neg (by simp [hca])]

/-- Witness for the amended C2: the `dBob` payload has falsy (absent)
`id` and `created_at`, and the update leaves both fields of Alice's row
unchanged. -/
theorem update_preserves_id_created_at_of_falsy_witness :
    tEx.columns.Nodup ∧
    (read_item_by_id sEx tEx (Value.vId 1)).1 = .ok rAlice ∧
    update_item sEx (Value.vId 1) dBob tEx =
      (.ok rBobRes, ⟨[rBobRes], [], 2, 7⟩, [SOp.exec]) ∧
    (dBob.get "id").truthy = false ∧
    (dBob.get "created_at").truthy = false ∧
    rBobRes.get "id" = rAlice.get "id" ∧
    rBobRes.get "created_at" = rAlice.get "created_at" := by
  have h := update_preserves_id_created_at_of_falsy sEx (Value.vId 1) dBob
    tEx rAlice rBobRes ⟨[rBobRes], [], 2, 7⟩ [SOp.exec]
    (by decide) (by decide) (by decide) (by decide) (by decide)
  exact ⟨by decide, by decide, by decide, by decide, by decide, h.1, h.2⟩

/-! ### Query-path helper lemmas -/

theorem buildStmt_ok (table : Table) (filters : List (String × Value))
    (st : Stmt)
    (hwf : ∀ kv ∈ filters, kv.2 ≠ Value.vNull → table.columns.contains kv.1) :
    buildStmt table st filters =
      .ok ⟨st.wheres ++
        filters.filter fun kv => !decide (kv.2 = Value.vNull)⟩ := by
  induction filters generalizing st with
  | nil => simp [buildStmt]
  | cons kv rest ih =>
    obtain ⟨attr, value⟩ := kv
    have hwf' : ∀ kv ∈ rest, kv.2 ≠ Value.vNull →
        table.columns.contains kv.1 :=
      fun kv hm => hwf kv (List.mem_cons_of_mem _ hm)
    by_cases hv : value = Value.vNull
    · simp [buildStmt, hv, ih st hwf']
    · have hc : table.columns.contains attr :=
        hwf (attr, value) (List.mem_cons_self _ _) hv
      have hc' : attr ∈ table.columns := by simpa using hc
      rw [show buildStmt table st ((attr, value) :: rest) =
          buildStmt table (st.whereEq attr value) rest from by
        simp [buildStmt, hv, hc']]
      rw [ih (st.whereEq attr value) hwf']
      simp [Stmt.whereEq, List.filter_cons, hv, List.append_assoc]

theorem rowMatches_nonNull (filters : List (String × Value)) (r : Record) :
    rowMatches r ⟨filters.filter fun kv => !decide (kv.2 = Value.vNull)⟩ =
      conjMatches filters r := by
  induction filters with
  | nil => rfl
  | cons kv rest ih =>
    by_cases hv : kv.2 = Value.vNull
    · have h1 : List.filter (fun kv => !decide (kv.2 = Value.vNull))
          (kv :: rest) =
          List.filter (fun kv => !decide (kv.2 = Value.vNull)) rest := by
        simp [List.filter_cons, hv]
      rw [h1, ih]
      simp [conjMatches, List.all_cons, hv]
    · have h1 : List.filter (fun kv => !decide (kv.2 = Value.vNull))
          (kv :: rest) =
          kv :: List.filter (fun kv => !decide (kv.2 = Value.vNull)) rest := by
        simp [List.filter_cons, hv]
      rw [h1]
      have h2 : rowMatches r ⟨kv ::
          (rest.filter fun kv => !decide (kv.2 = Value.vNull))⟩ =
          (decide (r.get kv.1 = kv.2) && rowMatches r
            ⟨rest.filter fun kv => !decide (kv.2 = Value.vNull)⟩) := by
        simp [rowMatches, List.all_cons]
      rw [h2, ih]
      simp [conjMatches, List.all_cons, hv]

theorem buildStmt_err (table : Table) (filters : List (String × Value))
    (st : Stmt) (k : String) (v : Value)
    (hm : (k, v) ∈ filters) (hv : v ≠ Value.vNull)
    (hc : table.columns.contains k = false) :
    buildStmt table st filters = .error Err.keyError := by
  induction filters generalizing st with
  | nil => cases hm
  | cons kv rest ih =>
    obtain ⟨attr, value⟩ := kv
    by_cases hval : value = Value.vNull
    · have hm' : (k, v) ∈ rest := by
        rcases List.mem_cons.mp hm with h | h
        · cases h
          exact absurd hval hv
        · exact h
      simp [buildStmt, hval, ih st hm']
    · by_cases hca : attr ∈ table.columns
      · have hm' : (k, v) ∈ rest := by
          rcases List.mem_cons.mp hm with h | h
          · cases h
            have : table.columns.contains k = true := by simpa using hca
            rw [this] at hc
            cases hc
          · exact h
        simp [buildStmt, hval, hca, ih (st.whereEq attr value) hm']
      · simp [buildStmt, hval, hca]

theorem buildStmt_skip_null (table : Table)
    (pre post : List (String × Value)) (st : Stmt) (k : String) :
    buildStmt table st (pre ++ (k, Value.vNull) :: post) =
      buildStmt table st (pre ++ post) := by
  induction pre generalizing st with
  | nil => simp [buildStmt]
  | cons kv rest ih =>
    obtain ⟨attr, value⟩ := kv
    by_cases hval : value = Value.vNull
    · simp [buildStmt, hval, ih st]
    · by_cases hca : attr ∈ table.columns
      · simp [buildStmt, hval, hca, ih (st.whereEq attr value)]
      · simp [buildStmt, hval, hca]

/-! ### Claim theorems (continued) -/

/-- C3: `read_item_by_id` returns exactly the one record whose `id`
column equals the identifier when exactly one matches, raises
`NoResultFound` when zero match, and raises `MultipleResultsFound` when
two or more match. -/
theorem read_by_id_cardinality_spec (s : Session) (table : Table)
    (idv : Value) :
    (∀ r, s.db.filter (fun x => decide (x.get "id" = idv)) = [r] →
      (read_item_by_id s table idv).1 = .ok r) ∧
    (s.db.filter (fun x => decide (x.get "id" = idv)) = [] →
      (read_item_by_id s table idv).1 = .error Err.noResultFound) ∧
    (∀ r1 r2 rest,
      s.db.filter (fun x => decide (x.get "id" = idv)) = r1 :: r2 :: rest →
      (read_item_by_id s table idv).1 = .error Err.multipleResultsFound) := by
  refine ⟨?_, ?_, ?_⟩
  · intro r h
    rw [read_item_by_id_eq]
    simp only
    rw [h]
    rfl
  · intro h
    rw [read_item_by_id_eq]
    simp only
    rw [h]
    rfl
  · intro r1 r2 rest h
    rw [read_item_by_id_eq]
    simp only
    rw [h]
    rfl

/-- Witness for C3: in the one-row session the lookup returns Alice's
row; a non-existent identifier yields `NoResultFound`; a duplicated
identifier yields `MultipleResultsFound`. -/
theorem read_by_id_cardinality_spec_witness :
    (read_item_by_id sEx tEx (Value.vId 1)).1 = .ok rAlice ∧
    (read_item_by_id sEx tEx (Value.vId 9)).1 = .error Err.noResultFound ∧
    (read_item_by_id sDup tEx (Value.vId 1)).1 =
      .error Err.multipleResultsFound := by
  refine ⟨(read_by_id_cardinality_spec sEx tEx (Value.vId 1)).1 rAlice
      (by decide),
    (read_by_id_cardinality_spec sEx tEx (Value.vId 9)).2.1 (by decide),
    (read_by_id_cardinality_spec sDup tEx (Value.vId 1)).2.2 rAlice rAlice []
      (by decide)⟩

/-- C4: with well-formed filters, `read_items_by_attrs` returns exactly
the records satisfying the conjunction of the non-`None` equality
constraints; zero filters return every record; a single `None`-valued
filter is equivalent to no filter at all. -/
theorem read_by_attrs_conjunctive_spec :
    (∀ (s : Session) (table : Table) (filters : List (String × Value)),
      (∀ kv ∈ filters, kv.2 ≠ Value.vNull → table.columns.contains kv.1) →
      read_items_by_attrs s table filters =
        (.ok (s.db.filter (conjMatches filters)), [SOp.exec])) ∧
    (∀ (s : Session) (table : Table),
      read_items_by_attrs s table [] = (.ok s.db, [SOp.exec])) ∧
    (∀ (s : Session) (table : Table) (k : String),
      read_items_by_attrs s table [(k, Value.vNull)] =
        read_items_by_attrs s table []) := by
  have hmain : ∀ (s : Session) (table : Table)
      (filters : List (String × Value)),
      (∀ kv ∈ filters, kv.2 ≠ Value.vNull → table.columns.contains kv.1) →
      read_items_by_attrs s table filters =
        (.ok (s.db.filter (conjMatches filters)), [SOp.exec]) := by
    intro s table filters hwf
    rw [read_items_by_attrs, buildStmt_ok table filters (selectAll table) hwf]
    simp only [selectAll, Session.executeSelect, List.nil_append]
    rw [List.filter_congr fun r _ => rowMatches_nonNull filters r]
  refine ⟨hmain, ?_, ?_⟩
  · intro s table
    have h := hmain s table [] (by intro kv h; cases h)
    rw [h]
    congr 1
    · congr 1
      apply List.filter_eq_self.mpr
      intro r _
      rfl
  · intro s table k
    rw [read_items_by_attrs, read_items_by_attrs]
    rw [show buildStmt table (selectAll table) [(k, Value.vNull)] =
      buildStmt table (selectAll table) [] from by simp [buildStmt]]

/-- Witness for C4: an equality filter selects Alice's row, no filters
return the whole store, and a `None`-valued filter behaves like no
filter. -/
theorem read_by_attrs_conjunctive_spec_witness :
    read_items_by_attrs sEx tEx [("name", Value.vStr "Alice")] =
      (.ok [rAlice], [SOp.exec]) ∧
    read_items_by_attrs sEx tEx [] = (.ok [rAlice], [SOp.exec]) ∧
    read_items_by_attrs sEx tEx [("active", Value.vNull)] =
      read_items_by_attrs sEx tEx [] := by
  refine ⟨?_, ?_, read_by_attrs_conjunctive_spec.2.2 sEx tEx "active"⟩
  · rw [read_by_attrs_conjunctive_spec.1 sEx tEx
      [("name", Value.vStr "Alice")] (by decide)]
    decide
  · rw [read_by_attrs_conjunctive_spec.2.1 sEx tEx]
    rfl

/-- C10: a filter whose name is not a column of the table and whose
value is not `None` makes `read_items_by_attrs` raise the unguarded
`KeyError` (rather than skipping the filter or returning an empty
result); an unknown-name filter is skipped only when its value is
`None`. -/
theorem read_by_attrs_unknown_filter_spec :
    (∀ (s : Session) (table : Table) (filters : List (String × Value))
      (k : String) (v : Value),
      (k, v) ∈ filters → v ≠ Value.vNull →
      table.columns.contains k = false →
      read_items_by_attrs s table filters = (.error Err.keyError, [])) ∧
    (∀ (s : Session) (table : Table) (pre post : List (String × Value))
      (k : String),
      table.columns.contains k = false →
      read_items_by_attrs s table (pre ++ (k, Value.vNull) :: post) =
        read_items_by_attrs s table (pre ++ post)) := by
  constructor
  · intro s table filters k v hm hv hc
    rw [read_items_by_attrs,
      buildStmt_err table filters (selectAll table) k v hm hv hc]
  · intro s table pre post k _
    rw [read_items_by_attrs, read_items_by_attrs,
      buildStmt_skip_null table pre post (selectAll table) k]

/-- Witness for C10: filtering on the unknown column `bogus` with a
non-`None` value raises `KeyError`; with value `None` the filter is
skipped. -/
theorem read_by_attrs_unknown_filter_spec_witness :
    ("bogus", Value.vInt 3) ∈ [("bogus", Value.vInt 3)] ∧
    Value.vInt 3 ≠ Value.vNull ∧
    tEx.columns.contains "bogus" = false ∧
    read_items_by_attrs sEx tEx [("bogus", Value.vInt 3)] =
      (.error Err.keyError, []) ∧
    read_items_by_attrs sEx tEx [("bogus", Value.vNull)] =
      read_items_by_attrs sEx tEx [] := by
  refine ⟨by decide, by decide, by decide,
    read_by_attrs_unknown_filter_spec.1 sEx tEx
      [("bogus", Value.vInt 3)] "bogus" (Value.vInt 3)
      (by decide) (by decide) (by decide), ?_⟩
  have h := read_by_attrs_unknown_filter_spec.2 sEx tEx [] [] "bogus"
    (by decide)
  simpa using h

/-! ### Creation-path helper lemmas -/

theorem flushRecs_append (now fresh : Nat) (p : List Record)
    (data : Record) :
    flushRecs now fresh (p ++ [data]) =
      flushRecs now fresh p ++
        [applyDefaults now (fresh + p.length) data] := by
  induction p generalizing fresh with
  | nil => simp [flushRecs]
  | cons r rest ih =>
    have h : fresh + 1 + rest.length = fresh + (rest.length + 1) := by omega
    have lhs : flushRecs now fresh ((r :: rest) ++ [data]) =
        applyDefaults now fresh r ::
          flushRecs now (fresh + 1) (rest ++ [data]) := rfl
    rw [lhs, ih (fresh + 1), h]
    rfl

theorem applyDefaults_unset (now fresh : Nat) (data : Record)
    (hid : data.get "id" = Value.vNull)
    (hca : data.get "created_at" = Value.vNull)
    (hua : data.get "updated_at" = Value.vNull) :
    applyDefaults now fresh data =
      ((data.set "id" (Value.vId fresh)).set "created_at"
        (Value.vTime now)).set "updated_at" (Value.vTime now) := by
  simp only [applyDefaults]
  rw [if_pos hid]
  have h1 : (data.set "id" (Value.vId fresh)).get "created_at" =
      Value.vNull := by
    rw [Record.get_set, if_neg (by decide)]
    exact hca
  rw [if_pos h1]
  have h2 : ((data.set "id" (Value.vId fresh)).set "created_at"
      (Value.vTime now)).get "updated_at" = Value.vNull := by
    rw [Record.get_set, if_neg (by decide), Record.get_set,
      if_neg (by decide)]
    exact hua
  rw [if_pos h2]

theorem applyDefaults_audit (now fresh : Nat) (data : Record)
    (hca : data.get "created_at" = Value.vNull)
    (hua : data.get "updated_at" = Value.vNull) :
    (applyDefaults now fresh data).get "created_at" = Value.vTime now ∧
    (applyDefaults now fresh data).get "updated_at" = Value.vTime now := by
  simp only [applyDefaults]
  by_cases hid : data.get "id" = Value.vNull
  · rw [if_pos hid]
    have h1 : (data.set "id" (Value.vId fresh)).get "created_at" =
        Value.vNull := by
      rw [Record.get_set, if_neg (by decide)]
      exact hca
    rw [if_pos h1]
    have h2 : ((data.set "id" (Value.vId fresh)).set "created_at"
        (Value.vTime now)).get "updated_at" = Value.vNull := by
      rw [Record.get_set, if_neg (by decide), Record.get_set,
        if_neg (by decide)]
      exact hua
    rw [if_pos h2]
    constructor
    · rw [Record.get_set, if_neg (by decide), Record.get_set, if_pos rfl]
    · rw [Record.get_set, if_pos rfl]
  · rw [if_neg hid, if_pos hca]
    have h2 : (data.set "created_at" (Value.vTime now)).get "updated_at" =
        Value.vNull := by
      rw [Record.get_set, if_neg (by decide)]
      exact hua
    rw [if_pos h2]
    constructor
    · rw [Record.get_set, if_neg (by decide), Record.get_set, if_pos rfl]
    · rw [Record.get_set, if_pos rfl]

/-! ### Claim theorems (continued) -/

/-- C5: `create_item` stages the candidate row, forces a flush (so the
column defaults are applied and the row reaches the store), and returns
exactly the outcome of re-reading the flushed row by its identifier —
including that re-read's failure modes. -/
theorem create_stages_flushes_rereads (s : Session) (table : Table)
    (data : Record) :
    (create_item s table data).2.2 = [SOp.add, SOp.flush, SOp.exec] ∧
    ((create_item s table data).2.1).db =
      s.db ++ flushRecs s.now s.nextId (s.pending ++ [data]) ∧
    applyDefaults s.now (s.nextId + s.pending.length) data ∈
      ((create_item s table data).2.1).db ∧
    (create_item s table data).1 =
      (read_item_by_id (create_item s table data).2.1 table
        ((applyDefaults s.now (s.nextId + s.pending.length) data).get
          "id")).1 := by
  refine ⟨rfl, rfl, ?_, rfl⟩
  show _ ∈ s.db ++ flushRecs s.now s.nextId (s.pending ++ [data])
  rw [flushRecs_append]
  simp

/-- C8: when no record matches the identifier, `update_item` surfaces
the same `NoResultFound` error as `read_item_by_id` and returns the
session unchanged — no record attribute is modified. -/
theorem update_missing_id_errors_and_preserves_session
    (s : Session) (idv : Value) (data : Record) (table : Table)
    (h : s.db.filter (fun r => decide (r.get "id" = idv)) = []) :
    update_item s idv data table =
      (.error Err.noResultFound, s, [SOp.exec]) ∧
    (read_item_by_id s table idv).1 = .error Err.noResultFound := by
  have hread : (read_item_by_id s table idv).1 =
      .error Err.noResultFound := by
    rw [read_item_by_id_eq]
    simp only
    rw [h]
    rfl
  exact ⟨update_item_err s idv data table Err.noResultFound hread, hread⟩

/-- Witness for C8: identifier `9` matches no row of the one-row
session; the update fails with `NoResultFound` and leaves the session
untouched. -/
theorem update_missing_id_errors_and_preserves_session_witness :
    sEx.db.filter (fun r => decide (r.get "id" = Value.vId 9)) = [] ∧
    update_item sEx (Value.vId 9) dBob tEx =
      (.error Err.noResultFound, sEx, [SOp.exec]) ∧
    (read_item_by_id sEx tEx (Value.vId 9)).1 =
      .error Err.noResultFound := by
  refine ⟨by decide, ?_, ?_⟩
  · exact (update_missing_id_errors_and_preserves_session sEx
      (Value.vId 9) dBob tEx (by decide)).1
  · exact (update_missing_id_errors_and_preserves_session sEx
      (Value.vId 9) dBob tEx (by decide)).2

/-- C9: `update_item` invokes no persistence primitive on the session —
its trace holds only `execute`, never `add`, `flush` or `commit` — and
on success it returns the mutated record, the store changing only by
that in-place mutation (pending rows, the identifier supply and the
clock are untouched). -/
theorem update_no_persistence_ops (s : Session) (idv : Value)
    (data : Record) (table : Table) :
    (∀ op ∈ (update_item s idv data table).2.2, op = SOp.exec) ∧
    (∀ (r' : Record) (s' : Session) (tr : List SOp),
      update_item s idv data table = (.ok r', s', tr) →
      s'.db = s.db.map (fun r => if r.get "id" = idv then r' else r) ∧
      s'.pending = s.pending ∧ s'.nextId = s.nextId ∧ s'.now = s.now) := by
  rcases hE : (read_item_by_id s table idv).1 with e | r0
  · rw [update_item_err s idv data table e hE]
    refine ⟨?_, ?_⟩
    · intro op hop
      simpa using hop
    · intro r' s' tr hcontra
      exact absurd (congrArg Prod.fst hcontra) (by simp)
  · rw [update_item_ok s idv data table r0 hE]
    refine ⟨?_, ?_⟩
    · intro op hop
      simpa using hop
    · intro r' s' tr h
      have h1 := congrArg Prod.fst h
      have h2 := congrArg (fun p => p.2.1) h
      simp only at h1 h2
      have hU : updResult s data table r0 = r' := by simpa using h1
      rw [← h2, ← hU]
      exact ⟨rfl, rfl, rfl, rfl⟩

/-- Witness for C9: the concrete update of Alice's row yields the
session whose store holds exactly the mutated row, pending list, supply
and clock unchanged. -/
theorem update_no_persistence_ops_witness :
    (⟨[rBobRes], [], 2, 7⟩ : Session).db =
      sEx.db.map (fun r => if r.get "id" = Value.vId 1 then rBobRes
        else r) ∧
    (⟨[rBobRes], [], 2, 7⟩ : Session).pending = sEx.pending ∧
    (⟨[rBobRes], [], 2, 7⟩ : Session).nextId = sEx.nextId ∧
    (⟨[rBobRes], [], 2, 7⟩ : Session).now = sEx.now :=
  (update_no_persistence_ops sEx (Value.vId 1) dBob tEx).2 rBobRes
    ⟨[rBobRes], [], 2, 7⟩ [SOp.exec] (by decide)

/-- C6: creating a fresh candidate (no client-set identifier or audit
timestamps, and the drawn identifier not yet present in the store) and
re-reading it by the returned identifier yields a record equal to the
created one in every non-server-assigned attribute, with
`created_at = updated_at` at that instant. -/
theorem create_read_roundtrip_fresh (s : Session) (table : Table)
    (data : Record)
    (hp : s.pending = [])
    (hid : data.get "id" = Value.vNull)
    (hca : data.get "created_at" = Value.vNull)
    (hua : data.get "updated_at" = Value.vNull)
    (hfresh : s.db.filter
      (fun r => decide (r.get "id" = Value.vId s.nextId)) = []) :
    ∃ r' : Record, ∃ s2 : Session,
      create_item s table data =
        (.ok r', s2, [SOp.add, SOp.flush, SOp.exec]) ∧
      (read_item_by_id s2 table (r'.get "id")).1 = .ok r' ∧
      r'.get "created_at" = Value.vTime s.now ∧
      r'.get "updated_at" = Value.vTime s.now ∧
      r'.get "created_at" = r'.get "updated_at" ∧
      ∀ a, a ≠ "id" → a ≠ "created_at" → a ≠ "updated_at" →
        r'.get a = data.get a := by
  have hd := applyDefaults_unset s.now s.nextId data hid hca hua
  generalize hDdef : ((data.set "id" (Value.vId s.nextId)).set "created_at"
      (Value.vTime s.now)).set "updated_at" (Value.vTime s.now) = D at hd
  have hgid : D.get "id" = Value.vId s.nextId := by
    rw [← hDdef, Record.get_set, if_neg (by decide), Record.get_set,
      if_neg (by decide), Record.get_set, if_pos rfl]
  have hgca : D.get "created_at" = Value.vTime s.now := by
    rw [← hDdef, Record.get_set, if_neg (by decide), Record.get_set,
      if_pos rfl]
  have hgua : D.get "updated_at" = Value.vTime s.now := by
    rw [← hDdef, Record.get_set, if_pos rfl]
  have hother : ∀ a, a ≠ "id" → a ≠ "created_at" → a ≠ "updated_at" →
      D.get a = data.get a := by
    intro a h1 h2 h3
    rw [← hDdef, Record.get_set, if_neg (fun he => h3 he.symm),
      Record.get_set, if_neg (fun he => h2 he.symm),
      Record.get_set, if_neg (fun he => h1 he.symm)]
  have hcreate : create_item s table data =
      ((read_item_by_id ⟨s.db ++ [D], [], s.nextId + 1, s.now⟩ table
        (D.get "id")).1,
       ⟨s.db ++ [D], [], s.nextId + 1, s.now⟩,
       [SOp.add, SOp.flush, SOp.exec]) := by
    simp only [create_item, Session.addRow, Session.flushAll, hp]
    simp [flushRecs, hd, read_item_by_id_eq]
  have hreadD : (read_item_by_id ⟨s.db ++ [D], [], s.nextId + 1, s.now⟩
      table (D.get "id")).1 = .ok D := by
    rw [read_item_by_id_eq]
    simp only
    rw [hgid, List.filter_append, hfresh]
    have hone : List.filter
        (fun r => decide (r.get "id" = Value.vId s.nextId)) [D] = [D] := by
      simp [List.filter_cons, hgid]
    rw [hone]
    rfl
  refine ⟨D, ⟨s.db ++ [D], [], s.nextId + 1, s.now⟩, ?_, hreadD, hgca,
    hgua, ?_, hother⟩
  · rw [hcreate, hreadD]
  · rw [hgca, hgua]

/-- Witness for C6: creating `dNew` in `sEx` assigns identifier `2` and
audit timestamps `7 = 7`, the payload attribute `name` survives the
round trip, and the re-read returns the persisted row. -/
theorem create_read_roundtrip_fresh_witness :
    create_item sEx tEx dNew =
      (.ok rNewRes, sNew, [SOp.add, SOp.flush, SOp.exec]) ∧
    (read_item_by_id sNew tEx (rNewRes.get "id")).1 = .ok rNewRes ∧
    rNewRes.get "created_at" = Value.vTime sEx.now ∧
    rNewRes.get "updated_at" = Value.vTime sEx.now ∧
    rNewRes.get "created_at" = rNewRes.get "updated_at" ∧
    rNewRes.get "name" = dNew.get "name" := by
  obtain ⟨r', s2, h1, h2, h3, h4, h5, h6⟩ :=
    create_read_roundtrip_fresh sEx tEx dNew (by decide) (by decide)
      (by decide) (by decide) (by decide)
  have hc : create_item sEx tEx dNew =
      (.ok rNewRes, sNew, [SOp.add, SOp.flush, SOp.exec]) := by decide
  rw [hc] at h1
  have hr : rNewRes = r' := by simpa using congrArg Prod.fst h1
  have hs : sNew = s2 := by
    simpa using congrArg (fun p => p.2.1) h1
  rw [← hr, ← hs] at h2
  rw [← hr] at h3 h4 h5
  exact ⟨hc, h2, h3, h4, h5,
    (hr ▸ h6) "name" (by decide) (by decide) (by decide)⟩

/-- Counterexample to C7 as stated: updating Alice's row with a payload
whose `created_at` carries the (truthy) time `100` while the clock is at
`7` succeeds and produces a record whose `created_at` exceeds its
`updated_at`. -/
theorem update_can_break_audit_order_cex :
    (update_item sEx (Value.vId 1) dTime tEx).1 = .ok rTimeRes ∧
    rTimeRes.get "created_at" = Value.vTime 100 ∧
    rTimeRes.get "updated_at" = Value.vTime 7 ∧
    ¬(100 ≤ 7) := by
  refine ⟨by decide, by decide, by decide, by decide⟩

/-- C7 amended: after a creation whose payload carries no client-set
audit timestamps, every new row has `created_at = updated_at` (old rows
are untouched); a successful update whose payload's `created_at` is
falsy, run while the clock is not earlier than the record's
`created_at`, yields `created_at ≤ updated_at`.  A truthy `created_at`
in the payload, or a clock behind the record's `created_at`, can break
the inequality. -/
theorem audit_order_after_create_and_guarded_update :
    (∀ (s : Session) (table : Table) (data : Record),
      s.pending = [] →
      data.get "created_at" = Value.vNull →
      data.get "updated_at" = Value.vNull →
      ∀ r ∈ ((create_item s table data).2.1).db,
        r ∈ s.db ∨
        (r.get "created_at" = Value.vTime s.now ∧
         r.get "updated_at" = Value.vTime s.now)) ∧
    (∀ (s : Session) (idv : Value) (data : Record) (table : Table)
      (r0 r' : Record) (s' : Session) (tr : List SOp) (c : Nat),
      table.columns.Nodup →
      (read_item_by_id s table idv).1 = .ok r0 →
      update_item s idv data table = (.ok r', s', tr) →
      (data.get "created_at").truthy = false →
      r0.get "created_at" = Value.vTime c →
      c ≤ s.now →
      ∃ c' u' : Nat, r'.get "created_at" = Value.vTime c' ∧
        r'.get "updated_at" = Value.vTime u' ∧ c' ≤ u') := by
  constructor
  · intro s table data hp hca hua r hr
    have hdb : ((create_item s table data).2.1).db =
        s.db ++ flushRecs s.now s.nextId (s.pending ++ [data]) := rfl
    rw [hdb, hp] at hr
    simp only [List.nil_append] at hr
    rcases List.mem_append.mp hr with h | h
    · exact Or.inl h
    · right
      have hre : r = applyDefaults s.now s.nextId data := by
        simpa [flushRecs] using h
      rw [hre]
      exact applyDefaults_audit s.now s.nextId data hca hua
  · intro s idv data table r0 r' s' tr c hnd hread hupd hca hc0 hle
    rw [update_item_ok s idv data table r0 hread] at hupd
    have hU : updResult s data table r0 = r' := by
      simpa using congrArg Prod.fst hupd
    refine ⟨c, s.now, ?_, ?_, hle⟩
    · rw [← hU, updResult_get s data table r0 hnd "created_at",
        if_neg (by decide), if_neg (by simp [hca])]
      exact hc0
    · rw [← hU, updResult_get s data table r0 hnd "updated_at",
        if_pos rfl]

/-- Witness for the amended C7: the freshly created row has equal audit
timestamps, and the guarded update of Alice's row (payload `dBob`,
record `created_at` of `1`, clock at `7`) keeps the audit order. -/
theorem audit_order_after_create_and_guarded_update_witness :
    (rNewRes ∈ sEx.db ∨
      (rNewRes.get "created_at" = Value.vTime sEx.now ∧
       rNewRes.get "updated_at" = Value.vTime sEx.now)) ∧
    (∃ c' u' : Nat, rBobRes.get "created_at" = Value.vTime c' ∧
      rBobRes.get "updated_at" = Value.vTime u' ∧ c' ≤ u') := by
  constructor
  · exact audit_order_after_create_and_guarded_update.1 sEx tEx dNew
      (by decide) (by decide) (by decide) rNewRes (by decide)
  · exact audit_order_after_create_and_guarded_update.2 sEx (Value.vId 1)
      dBob tEx rAlice rBobRes ⟨[rBobRes], [], 2, 7⟩ [SOp.exec] 1
      (by decide) (by decide) (by decide) (by decide) (by decide)
      (by decide)

end DiffusionCrud
